/-
Verification of the Mailopolis repository against its specification.

The file shallowly embeds the relevant parts of the code base:

* the React game-state reducer of the UI (GameContext: `initialState`,
  `gameReducer` and the action creators `submitProposal` / `startNewRound`);
* the Solana `MailLedger` class (`recordMessage`, `getMessageHistory`);
* the `LogsPanel` websocket log buffer (`slice(-100)` retention);
* the Policy Arbitration Engine.  The engine itself (ProposalEvaluator,
  LobbyingEngine, Arbiter, TrustLedger) is served by a backend that is not
  part of this repository snapshot, so those components are modelled from
  the specification text, as marked on each definition.

Numbers of the JavaScript/TypeScript code are embedded as rationals (ℚ),
array indices and counters as naturals.
-/
import Mathlib

namespace Mailopolis

/-! ## Game state of the UI (GameContext.js / part_004) -/

/-- A department record of `initialState`:
`{ name, sustainability_score, id }`. -/
structure Department where
  name : String
  sustainability_score : ℚ
  id : String
deriving Repr, DecidableEq

/-- A message shown in the AgentMail inbox (payload of `ADD_MESSAGE`). -/
structure GMessage where
  sender : String
  subject : String
  content : String
deriving Repr, DecidableEq

/-- A bad-actor record (payload element of `UPDATE_BAD_ACTORS`). -/
structure BadActor where
  name : String
deriving Repr, DecidableEq

/-- A blockchain transaction (payload element of `UPDATE_BLOCKCHAIN`). -/
structure Txn where
  hash : String
deriving Repr, DecidableEq

/-- A UI notification; `id` is the `Date.now()` value attached by
`addNotification`, used by `REMOVE_NOTIFICATION` to filter. -/
structure Notification where
  id : ℤ
  text : String
deriving Repr, DecidableEq

/-- A submitted proposal as stored by `ADD_PROPOSAL`
(`{ id, title, description, targetDepartment, timestamp }`). -/
structure GProposal where
  id : String
  title : String
  description : String
  targetDepartment : String
  timestamp : String
deriving Repr, DecidableEq

/-- The game state held by `GameContext`: the fields of `initialState`. -/
structure GameState where
  sustainabilityIndex : ℚ
  mayorTrust : ℚ
  badActorInfluence : ℚ
  roundNumber : ℕ
  maxRounds : ℕ
  departments : List Department
  badActors : List BadActor
  blockchainTransactions : List Txn
  messages : List GMessage
  unreadCount : ℕ
  pendingProposals : List GProposal
  submittedProposals : List GProposal
  loading : Bool
  error : Option String
  notifications : List Notification
deriving Repr, DecidableEq

/-- `initialState` of GameContext.js, verbatim: six departments at score 50,
index 50, mayor trust 50, bad-actor influence 30, round 1 of 25. -/
def initialState : GameState where
  sustainabilityIndex := 50
  mayorTrust := 50
  badActorInfluence := 30
  roundNumber := 1
  maxRounds := 25
  departments :=
    [ ⟨"Energy", 50, "ENERGY"⟩
    , ⟨"Transportation", 50, "TRANSPORTATION"⟩
    , ⟨"Housing & Development", 50, "HOUSING"⟩
    , ⟨"Waste Management", 50, "WASTE"⟩
    , ⟨"Water Systems", 50, "WATER"⟩
    , ⟨"Economic Development", 50, "ECONOMIC_DEV"⟩ ]
  badActors := []
  blockchainTransactions := []
  messages := []
  unreadCount := 0
  pendingProposals := []
  submittedProposals := []
  loading := false
  error := none
  notifications := []

/-- Payload of `UPDATE_GAME_STATE`: the server sends an object whose present
keys override the corresponding state fields (JS object spread
`{ ...state, ...action.payload, error: null }`); absent keys leave the field
untouched.  The keys modelled are the scalar game metrics that appear in
`initialState`. -/
structure GamePatch where
  sustainabilityIndex : Option ℚ := none
  mayorTrust : Option ℚ := none
  badActorInfluence : Option ℚ := none
  roundNumber : Option ℕ := none
  maxRounds : Option ℕ := none
deriving Repr, DecidableEq

/-- The action union handled by `gameReducer` (the `actionTypes` constants,
each with its dispatch payload). -/
inductive GameAction where
  | setLoading (b : Bool)
  | setError (e : Option String)
  | updateGameState (p : GamePatch)
  | updateDepartments (d : List Department)
  | updateBadActors (l : List BadActor)
  | addMessage (m : GMessage)
  | markMessagesRead
  | addProposal (p : GProposal)
  | updateBlockchain (l : List Txn)
  | addNotification (n : Notification)
  | removeNotification (id : ℤ)
  | startNewRound
deriving Repr, DecidableEq

/-- `gameReducer(state, action)` of GameContext.js.  Each branch is the
object-spread of the corresponding `case`. -/
def gameReducer (s : GameState) : GameAction → GameState
  | .setLoading b => { s with loading := b }
  | .setError e => { s with error := e, loading := false }
  | .updateGameState p =>
      { s with
        sustainabilityIndex := p.sustainabilityIndex.getD s.sustainabilityIndex
        mayorTrust := p.mayorTrust.getD s.mayorTrust
        badActorInfluence := p.badActorInfluence.getD s.badActorInfluence
        roundNumber := p.roundNumber.getD s.roundNumber
        maxRounds := p.maxRounds.getD s.maxRounds
        error := none }
  | .updateDepartments d => { s with departments := d }
  | .updateBadActors l => { s with badActors := l }
  | .addMessage m =>
      { s with messages := m :: s.messages, unreadCount := s.unreadCount + 1 }
  | .markMessagesRead => { s with unreadCount := 0 }
  | .addProposal p =>
      { s with submittedProposals := p :: s.submittedProposals }
  | .updateBlockchain l => { s with blockchainTransactions := l }
  | .addNotification n =>
      { s with notifications := s.notifications ++ [n] }
  | .removeNotification i =>
      { s with notifications := s.notifications.filter (fun n => n.id != i) }
  | .startNewRound =>
      { s with roundNumber := s.roundNumber + 1, pendingProposals := [] }

/-- The states reachable from `initialState` by dispatching reducer actions. -/
inductive Reachable : GameState → Prop where
  | init : Reachable initialState
  | step {s : GameState} (a : GameAction) : Reachable s → Reachable (gameReducer s a)

/-- Arithmetic mean of the departments' sustainability scores
(the city sustainability index of the spec). -/
def deptMean (l : List Department) : ℚ :=
  (l.map (fun d => d.sustainability_score)).sum / (l.length : ℚ)

/-- The state transformation of the `submitProposal` action creator on its
success path: it dispatches `SET_LOADING true`, then `ADD_PROPOSAL` with the
recorded proposal, then `SET_LOADING false` in the `finally` block. -/
def submitProposal (s : GameState) (p : GProposal) : GameState :=
  gameReducer (gameReducer (gameReducer s (.setLoading true)) (.addProposal p))
    (.setLoading false)

/-- The state transformation of the `submitProposal` action creator when the
service call throws: only `SET_LOADING true` then `SET_LOADING false` are
dispatched (the error is re-thrown, no `SET_ERROR`). -/
def submitProposalFailed (s : GameState) : GameState :=
  gameReducer (gameReducer s (.setLoading true)) (.setLoading false)

/-- The state transformation of `startNewRound` / the `round_start` websocket
handler: a single `START_NEW_ROUND` dispatch. -/
def startNewRound (s : GameState) : GameState :=
  gameReducer s .startNewRound

/-! ## MailLedger (src/solana/src/mailLedger.ts) -/

/-- A `ChatMessage` of the Solana mail ledger (`types.ts`): agent types are
strings such as `"mayor"` or `"power_grid_chief"`. -/
structure ChatMessage where
  id : String
  sender : String
  recipient : String
  content : String
  timestamp : ℕ
deriving Repr, DecidableEq

/-- The mutable state of a `MailLedger` instance that `recordMessage` and
`getMessageHistory` consult: the in-memory `messageHistory` array and the
`agentAccounts` map (agent type → generated account public key, embedded as a
number). -/
structure LedgerState where
  messageHistory : List ChatMessage
  agentAccounts : List (String × ℕ)
deriving Repr, DecidableEq

/-- `MailLedger.recordMessage`: pushes the message onto `messageHistory`,
looks up the sender and recipient accounts purely for logging (a missing
account only skips the log line, it is not an error), and returns a mock
transaction signature.  No branch throws. -/
def recordMessage (st : LedgerState) (m : ChatMessage) : LedgerState × String :=
  let senderAccount := st.agentAccounts.lookup m.sender
  let recipientAccount := st.agentAccounts.lookup m.recipient
  let logged := senderAccount.isSome && recipientAccount.isSome
  ({ st with messageHistory := st.messageHistory ++ [m] },
    if logged then "mail_sig_logged" else "mail_sig")

/-- `MailLedger.getMessageHistory(sender?, recipient?)`: starts from the full
history, filters by sender when one is given, then filters by recipient when
one is given. -/
def getMessageHistory (st : LedgerState) (sender recipient : Option String) :
    List ChatMessage :=
  let filtered := st.messageHistory
  let filtered :=
    match sender with
    | some s => filtered.filter (fun msg => msg.sender == s)
    | none => filtered
  let filtered :=
    match recipient with
    | some r => filtered.filter (fun msg => msg.recipient == r)
    | none => filtered
  filtered

/-- The combined predicate of C8: a message matches when its sender equals the
given sender (if any) and its recipient equals the given recipient (if any). -/
def matchesFilters (sender recipient : Option String) (m : ChatMessage) : Bool :=
  (match sender with | some s => m.sender == s | none => true) &&
  (match recipient with | some r => m.recipient == r | none => true)

/-! ## LogsPanel websocket buffer (LogsPanel.tsx / part_011) -/

/-- A `LogEntry` of LogsPanel: `id` is `Date.now() + Math.random()` (embedded
as a rational), with the raw websocket message and an arrival timestamp. -/
structure LogEntry where
  id : ℚ
  message : String
  timestamp : String
deriving Repr, DecidableEq

/-- The `ws.onmessage` state update of LogsPanel:
`[...prevLogs, newEntry].slice(-100)`.  JavaScript `slice(-100)` keeps the
last `min(100, length)` elements, i.e. drops `length - 100` from the front
(truncated at zero). -/
def pushLog (logs : List LogEntry) (e : LogEntry) : List LogEntry :=
  let l := logs ++ [e]
  l.drop (l.length - 100)

/-- The log list held by LogsPanel after a sequence of websocket messages,
starting from the initial empty `useState` value. -/
def logsAfter (entries : List LogEntry) : List LogEntry :=
  entries.foldl pushLog []

/-! ## Policy Arbitration Engine

The engine (ProposalEvaluator, LobbyingEngine, Arbiter, TrustLedger,
SustainabilityAggregator) runs in a backend service that is not part of this
repository snapshot — only its HTTP/WebSocket consumers are.  The definitions
in this section are therefore modelled from the specification text (§3–§4.6),
each marked accordingly. -/

/-- Modelled from the spec: the priority dimensions of §3
(`sustainability, economic, political, health, budget, approval`). -/
inductive Dimension where
  | sustainability | economic | political | health | budget | approval
deriving Repr, DecidableEq

/-- Modelled from the spec: the four decision styles of §3. -/
inductive DecisionStyle where
  | aggressive | cautious | collaborative | bureaucratic
deriving Repr, DecidableEq

/-- Modelled from the spec: the immutable `AgentPersonality` record of §3. -/
structure AgentPersonality where
  id : String
  department : Option String
  decisionStyle : DecisionStyle
  priorities : List (Dimension × ℚ)
  riskTolerance : ℚ
  corruptionResistance : ℚ
  budgetSensitivity : ℚ
deriving Repr, DecidableEq

/-- Modelled from the spec: the `Proposal` record of §3, with its signed
integer impact vector and nonnegative `bribeAmount`. -/
structure Proposal where
  id : ℕ
  proposerId : String
  targetDepartment : String
  sustainabilityImpact : ℤ
  economicImpact : ℤ
  politicalImpact : ℤ
  bribeAmount : ℚ
  createdAtTurn : ℕ
deriving Repr, DecidableEq

/-- Modelled from the spec: the evaluation context of §4.1 — the current
mayor-trust value (for the `approval` dimension) and the configured default
variance constant (for cautious personalities). -/
structure Context where
  mayorTrust : ℚ
  defaultVariance : ℚ
deriving Repr, DecidableEq

/-- Modelled from the spec: the tunable engine constants (§4.2, §4.4, §9
require them to be configuration, not literals).  Defaults follow the
numbers the spec gives as a starting configuration. -/
structure EngineConfig where
  bribeScaleConstant : ℚ := 50000
  maxInfluence : ℚ := 2
  corruptedThreshold : ℚ := 1/2
  aggressiveMultiplier : ℚ := 3/2
  cautiousPenaltyFactor : ℚ := 1/2
  collaborativeBonus : ℚ := 5
  bureaucraticFactor : ℚ := 1/10
  baseAcceptThreshold : ℚ := 10
  riskSlope : ℚ := 1/10
  jitterAmplitude : ℚ := 0
  scoreNormConstant : ℚ := 100
  trustGainBase : ℚ := 10
  trustLossBase : ℚ := 5
  noActionDecay : ℚ := 2
  maxTrustChangePerRound : ℚ := 15
deriving Repr, DecidableEq

/-- Modelled from the spec (§4.1): the impact value a priority dimension reads
off the proposal — sustainability, economic and political map to the impact
vector, budget to `-|economicImpact|` scaled by `budgetSensitivity`, approval
to `politicalImpact` scaled by the mayor-trust context.  The spec gives no
mapping for `health`; it contributes zero. -/
def dimImpact (p : AgentPersonality) (pr : Proposal) (ctx : Context) :
    Dimension → ℚ
  | .sustainability => (pr.sustainabilityImpact : ℚ)
  | .economic => (pr.economicImpact : ℚ)
  | .political => (pr.politicalImpact : ℚ)
  | .health => 0
  | .budget => -(|pr.economicImpact| : ℚ) * (p.budgetSensitivity / 100)
  | .approval => (pr.politicalImpact : ℚ) * (ctx.mayorTrust / 100)

/-- Modelled from the spec (§4.1): `rawScore = Σ weight_d × impact_d` over the
personality's priorities. -/
def rawScore (p : AgentPersonality) (pr : Proposal) (ctx : Context) : ℚ :=
  (p.priorities.map (fun dw => dw.2 * dimImpact p pr ctx dw.1)).sum

/-- Modelled from the spec (§4.1): the decision-style modifier applied to the
raw score.  Aggressive multiplies positive scores by a factor ≥ 1, cautious
subtracts a penalty proportional to the default variance, collaborative adds
a bonus for cross-department proposals, bureaucratic subtracts a penalty
proportional to `budgetSensitivity` when `economicImpact < 0`. -/
def styleAdjusted (cfg : EngineConfig) (p : AgentPersonality) (pr : Proposal)
    (ctx : Context) : ℚ :=
  let r := rawScore p pr ctx
  match p.decisionStyle with
  | .aggressive => if 0 < r then r * cfg.aggressiveMultiplier else r
  | .cautious => r - cfg.cautiousPenaltyFactor * ctx.defaultVariance
  | .collaborative =>
      r + (if p.department = some pr.targetDepartment then 0
           else cfg.collaborativeBonus)
  | .bureaucratic =>
      r - (if pr.economicImpact < 0 then cfg.bureaucraticFactor * p.budgetSensitivity
           else 0)

/-- Modelled from the spec (§4.1): the per-personality acceptance threshold
derived from `riskTolerance` — a higher tolerance lowers the threshold. -/
def acceptThreshold (cfg : EngineConfig) (p : AgentPersonality) : ℚ :=
  cfg.baseAcceptThreshold - cfg.riskSlope * p.riskTolerance

/-- Modelled from the spec (§4.1): configured jitter derived from the explicit
seed alone (a linear-congruential hash mapped into [0,1) and scaled by the
configured amplitude).  The seed is used only here, never in the accept/score
core logic. -/
def jitter (cfg : EngineConfig) (seed : ℕ) : ℚ :=
  cfg.jitterAmplitude * (((seed * 1103515245 + 12345) % 1000 : ℕ) : ℚ) / 1000

/-- Modelled from the spec: the scored opinion returned by the evaluator. -/
structure Opinion where
  score : ℚ
  accept : Bool
deriving Repr, DecidableEq

/-- Modelled from the spec (§4.1): `ProposalEvaluator.evaluate` — the
style-adjusted weighted score, with jitter added to the reported score only,
and `accept` true iff the core (jitter-free) score exceeds the acceptance
threshold.  A pure function of `(personality, proposal, context, seed)`. -/
def evaluate (cfg : EngineConfig) (p : AgentPersonality) (pr : Proposal)
    (ctx : Context) (seed : ℕ) : Opinion :=
  let core := styleAdjusted cfg p pr ctx
  { score := core + jitter cfg seed
    accept := decide (acceptThreshold cfg p < core) }

/-- Modelled from the spec (§4.2): `influence = min(bribeAmount /
bribeScaleConstant, maxInfluence)`. -/
def influence (cfg : EngineConfig) (bribeAmount : ℚ) : ℚ :=
  min (bribeAmount / cfg.bribeScaleConstant) cfg.maxInfluence

/-- Modelled from the spec (§4.2): `appliedInfluence = influence × (1 −
corruptionResistance/100)`. -/
def appliedInfluence (cfg : EngineConfig) (bribeAmount cr : ℚ) : ℚ :=
  influence cfg bribeAmount * (1 - cr / 100)

/-- Modelled from the spec: the lobbying bid record of §4.2. -/
structure Bid where
  effectiveScore : ℚ
  corrupted : Bool
deriving Repr, DecidableEq

/-- Modelled from the spec (§4.2): `LobbyingEngine.bid` — the target's
evaluator score plus the applied influence; `corrupted` is true when the
applied influence exceeds the configured significance threshold. -/
def bid (cfg : EngineConfig) (_badActor : AgentPersonality) (pr : Proposal)
    (target : AgentPersonality) (ctx : Context) (seed : ℕ) : Bid :=
  let ai := appliedInfluence cfg pr.bribeAmount target.corruptionResistance
  { effectiveScore := (evaluate cfg target pr ctx seed).score + ai
    corrupted := decide (cfg.corruptedThreshold < ai) }

/-- Modelled from the spec (§4.3): a candidate proposal together with its
`finalScore` (composite score times the trust multiplier).  The candidate
list is ordered by submission sequence within the round. -/
structure Scored where
  proposal : Proposal
  finalScore : ℚ
deriving Repr, DecidableEq

/-- Modelled from the spec (§4.3): one step of the Arbiter's resolution scan.
A candidate with nonpositive final score is never selected; otherwise it
replaces the current best only when strictly better, so the earliest submitted
candidate wins ties. -/
def pickBetter (best : Option Scored) (c : Scored) : Option Scored :=
  if c.finalScore ≤ 0 then best
  else
    match best with
    | none => some c
    | some b => if b.finalScore < c.finalScore then some c else some b

/-- Modelled from the spec (§4.3): the Arbiter's winner selection over the
round's candidates in submission order — the highest positive `finalScore`
wins, ties go to the earliest submission, and no positive score means no
winner. -/
def selectWinner (cands : List Scored) : Option Scored :=
  cands.foldl pickBetter none

/-- Modelled from the spec (§4.5): `clamp(x, 0, 100)` used for department
scores and trust values. -/
def clamp100 (x : ℚ) : ℚ :=
  max 0 (min 100 x)

/-- Modelled from the spec (§4.5): applying a decision's department delta —
the winning proposal's sustainability impact is added (clamped to [0,100]) to
its target department's score; other departments are unchanged. -/
def applyDeltas (deps : List (String × ℚ)) (w : Scored) : List (String × ℚ) :=
  deps.map (fun d =>
    if d.1 = w.proposal.targetDepartment then
      (d.1, clamp100 (d.2 + (w.proposal.sustainabilityImpact : ℚ)))
    else d)

/-- Modelled from the spec (§4.3): the Arbiter's per-round resolution at the
candidate level: the selected winner (if any) determines the
`winningProposalId` and the updated department scores; with no winner the
outcome is the "no action" decision and the departments are unchanged. -/
def resolveCandidates (deps : List (String × ℚ)) (cands : List Scored) :
    Option ℕ × List (String × ℚ) :=
  match selectWinner cands with
  | none => (none, deps)
  | some w => (some w.proposal.id, applyDeltas deps w)

/-- Modelled from the spec (§4.4): the outcome record `applyOutcome` reads —
the winner (if any), its final score normalized to [0,1], and the round's
proposers. -/
structure Outcome where
  winningProposalId : Option ℕ
  winnerId : Option String
  normScore : ℚ
  proposers : List String
deriving Repr, DecidableEq

/-- Modelled from the spec (§4.4): the trust adjustment an agent receives from
an outcome — the winner gains `trustGainBase × normScore` capped at the
per-round maximum, losers lose `trustLossBase`, and a no-action round applies
the smaller universal decay to all proposers. -/
def trustDelta (cfg : EngineConfig) (d : Outcome) (a : String) : ℚ :=
  match d.winnerId with
  | some w =>
      if a = w then min (cfg.trustGainBase * d.normScore) cfg.maxTrustChangePerRound
      else if a ∈ d.proposers then -cfg.trustLossBase
      else 0
  | none => if a ∈ d.proposers then -cfg.noActionDecay else 0

/-- Modelled from the spec (§4.4): `TrustLedger.applyOutcome` — every agent's
trust moves by its outcome delta and is clamped (not wrapped) into [0,100]. -/
def applyOutcome (cfg : EngineConfig) (trust : String → ℚ) (d : Outcome) :
    String → ℚ :=
  fun a => clamp100 (trust a + trustDelta cfg d a)

/-- Modelled from the spec (§2, §4.3): the per-session configuration — the
engine constants, the registry of personalities (Mayor and department heads),
the composite-score weights, and the trust baseline. -/
structure SessionConfig where
  engine : EngineConfig
  mayor : AgentPersonality
  deptHeads : List AgentPersonality
  mayorWeight : ℚ := 2
  headWeight : ℚ := 1
  baselineTrust : ℚ := 50
  defaultVariance : ℚ := 10
  initialDepartments : List (String × ℚ) := []
deriving Repr, DecidableEq

/-- Modelled from the spec: the mutable per-session engine state — department
scores and the per-agent trust table (association list over agent ids,
falling back to the configured baseline). -/
structure EngineState where
  departments : List (String × ℚ)
  trust : List (String × ℚ)
deriving Repr, DecidableEq

/-- Modelled from the spec (§3): a trust lookup defaulting to the configured
baseline. -/
def trustOf (sc : SessionConfig) (st : EngineState) (a : String) : ℚ :=
  (st.trust.lookup a).getD sc.baselineTrust

/-- Modelled from the spec (§4.3): the composite score — the Mayor's opinion
weighted most heavily, trust-weighted department-head opinions, plus the
lobbying influence applied against the Mayor's corruption resistance. -/
def compositeScore (sc : SessionConfig) (st : EngineState) (ctx : Context)
    (seed : ℕ) (pr : Proposal) : ℚ :=
  sc.mayorWeight * (evaluate sc.engine sc.mayor pr ctx seed).score
    + (sc.deptHeads.map (fun h =>
        sc.headWeight * (trustOf sc st h.id / 100) *
          (evaluate sc.engine h pr ctx seed).score)).sum
    + appliedInfluence sc.engine pr.bribeAmount sc.mayor.corruptionResistance

/-- Modelled from the spec (§4.3): `finalScore = compositeScore × (0.5 +
trust(proposer)/200)`. -/
def finalScore (sc : SessionConfig) (st : EngineState) (ctx : Context)
    (seed : ℕ) (pr : Proposal) : ℚ :=
  compositeScore sc st ctx seed pr * (1/2 + trustOf sc st pr.proposerId / 200)

/-- Modelled from the spec (§3): the immutable `Decision` record emitted once
per round. -/
structure DecisionRec where
  winningProposalId : Option ℕ
  acceptedBy : String
  departmentDeltas : List (String × ℚ)
  trustDeltas : List (String × ℚ)
  turn : ℕ
deriving Repr, DecidableEq

/-- Modelled from the spec (§4.6, §4.1–§4.5 in sequence): resolve one round —
score every pending proposal, select the winner, update departments, apply
the trust outcome, and emit the `Decision` record. -/
def runRound (sc : SessionConfig) (seed : ℕ) (turn : ℕ) (st : EngineState)
    (props : List Proposal) : DecisionRec × EngineState :=
  let ctx : Context := ⟨trustOf sc st sc.mayor.id, sc.defaultVariance⟩
  let cands := props.map (fun p => Scored.mk p (finalScore sc st ctx seed p))
  let winner := selectWinner cands
  let outcome : Outcome :=
    { winningProposalId := winner.map (fun w => w.proposal.id)
      winnerId := winner.map (fun w => w.proposal.proposerId)
      normScore := clamp100 ((winner.map Scored.finalScore).getD 0) /
        sc.engine.scoreNormConstant
      proposers := props.map Proposal.proposerId }
  let newDeps :=
    match winner with
    | none => st.departments
    | some w => applyDeltas st.departments w
  let agents := sc.mayor.id :: (sc.deptHeads.map AgentPersonality.id
    ++ props.map Proposal.proposerId)
  let newTrust := agents.map (fun a =>
    (a, applyOutcome sc.engine (trustOf sc st) outcome a))
  ( { winningProposalId := outcome.winningProposalId
      acceptedBy := sc.mayor.id
      departmentDeltas := newDeps
      trustDeltas := (props.map Proposal.proposerId).map (fun a =>
        (a, trustDelta sc.engine outcome a))
      turn := turn }
  , { departments := newDeps, trust := newTrust } )

/-- Modelled from the spec (§4.6, §8): a full engine run — fold the rounds of
the proposal sequence through `runRound`, collecting the emitted `Decision`
records. -/
def runEngine (sc : SessionConfig) (seed : ℕ) (rounds : List (List Proposal)) :
    List DecisionRec :=
  (rounds.foldl
    (fun acc props =>
      let step := runRound sc seed acc.2.2 acc.2.1 props
      (acc.1 ++ [step.1], step.2, acc.2.2 + 1))
    (([] : List DecisionRec), ⟨sc.initialDepartments, []⟩, 1)).1

/-! ## Theorems -/

/-- C1 (counterexample): the claim "in every reachable game state the city
sustainability index equals the mean of the department scores" is false for
the GameContext reducer: dispatching `UPDATE_DEPARTMENTS` with a payload
whose scores average 80 yields a reachable state whose stored
`sustainabilityIndex` is still 50. -/
theorem C1_counterexample :
    Reachable (gameReducer initialState
      (GameAction.updateDepartments [⟨"Energy", 80, "ENERGY"⟩])) ∧
    (gameReducer initialState
      (GameAction.updateDepartments [⟨"Energy", 80, "ENERGY"⟩])).sustainabilityIndex ≠
      deptMean (gameReducer initialState
        (GameAction.updateDepartments [⟨"Energy", 80, "ENERGY"⟩])).departments := by
  constructor
  · exact Reachable.step _ Reachable.init
  · norm_num [gameReducer, initialState, deptMean]

/-- C1 (amended): the invariant `cityIndex = mean(department scores)` holds in
the initial state (all six departments at 50, index 50), but the index is a
stored field that is updated independently of the departments: the
`UPDATE_DEPARTMENTS` branch of `gameReducer` replaces the department list
without recomputing `sustainabilityIndex`, so the two can drift apart in
reachable states. -/
theorem C1_index_amended :
    initialState.sustainabilityIndex = deptMean initialState.departments ∧
    ∀ (s : GameState) (d : List Department),
      (gameReducer s (GameAction.updateDepartments d)).departments = d ∧
      (gameReducer s (GameAction.updateDepartments d)).sustainabilityIndex =
        s.sustainabilityIndex := by
  refine ⟨?_, fun s d => ⟨rfl, rfl⟩⟩
  norm_num [initialState, deptMean]

/-- C6: `submitProposal` never changes the departments or the trust state.  On
its success path it only records the proposal (prepended to
`submittedProposals`) and toggles the loading flag back off; departments,
mayor trust, bad-actor influence, sustainability index and the pending
proposals are untouched.  On its failure path the dispatches reduce to the
original state with `loading := false`. -/
theorem C6_submitProposal_frame :
    ∀ (s : GameState) (p : GProposal),
      (submitProposal s p).departments = s.departments ∧
      (submitProposal s p).mayorTrust = s.mayorTrust ∧
      (submitProposal s p).badActorInfluence = s.badActorInfluence ∧
      (submitProposal s p).sustainabilityIndex = s.sustainabilityIndex ∧
      (submitProposal s p).pendingProposals = s.pendingProposals ∧
      (submitProposal s p).roundNumber = s.roundNumber ∧
      (submitProposal s p).submittedProposals = p :: s.submittedProposals ∧
      submitProposalFailed s = { s with loading := false } :=
  fun _ _ => ⟨rfl, rfl, rfl, rfl, rfl, rfl, rfl, rfl⟩

/-- C7: the `START_NEW_ROUND` reducer branch increments the round counter by
exactly one and empties `pendingProposals`, leaving every other state field
(departments, bad actors, messages, unread count, submitted proposals,
blockchain transactions, notifications, metrics, flags) unchanged. -/
theorem C7_startNewRound_frame :
    ∀ s : GameState,
      (startNewRound s).roundNumber = s.roundNumber + 1 ∧
      (startNewRound s).pendingProposals = [] ∧
      (startNewRound s).departments = s.departments ∧
      (startNewRound s).badActors = s.badActors ∧
      (startNewRound s).messages = s.messages ∧
      (startNewRound s).unreadCount = s.unreadCount ∧
      (startNewRound s).submittedProposals = s.submittedProposals ∧
      (startNewRound s).blockchainTransactions = s.blockchainTransactions ∧
      (startNewRound s).notifications = s.notifications ∧
      (startNewRound s).sustainabilityIndex = s.sustainabilityIndex ∧
      (startNewRound s).mayorTrust = s.mayorTrust ∧
      (startNewRound s).badActorInfluence = s.badActorInfluence ∧
      (startNewRound s).maxRounds = s.maxRounds ∧
      (startNewRound s).loading = s.loading ∧
      (startNewRound s).error = s.error :=
  fun _ => ⟨rfl, rfl, rfl, rfl, rfl, rfl, rfl, rfl, rfl, rfl, rfl, rfl, rfl, rfl, rfl⟩

/-- C8: `MailLedger.getMessageHistory` returns exactly the recorded messages
that pass the optional sender filter and the optional recipient filter, in
their original recording order (it is one `List.filter` of the history, which
preserves order); with no filters it returns the entire history. -/
theorem C8_getMessageHistory_filter :
    ∀ (st : LedgerState) (sender recipient : Option String),
      getMessageHistory st sender recipient =
        st.messageHistory.filter (matchesFilters sender recipient) ∧
      getMessageHistory st none none = st.messageHistory := by
  intro st sender recipient
  constructor
  · cases sender with
    | none =>
        cases recipient with
        | none =>
            simp only [getMessageHistory]
            exact (List.filter_eq_self.mpr fun a _ => by simp [matchesFilters]).symm
        | some r =>
            simp only [getMessageHistory]
            exact List.filter_congr fun a _ => by simp [matchesFilters]
    | some s =>
        cases recipient with
        | none =>
            simp only [getMessageHistory]
            exact List.filter_congr fun a _ => by simp [matchesFilters]
        | some r =>
            simp only [getMessageHistory, List.filter_filter]
            exact List.filter_congr fun a _ => by
              simp only [matchesFilters]
              exact Bool.and_comm _ _
  · simp [getMessageHistory]

/-- C9: `MailLedger.recordMessage` appends the message as the last element of
`messageHistory`: the length grows by one, every previously recorded message
keeps its content and position (the old history is an unchanged initial
segment), the account map is untouched, and the result is the same whatever
the `agentAccounts` map contains — a missing sender or recipient account only
skips a log line, it is not an error path. -/
theorem C9_recordMessage_append :
    ∀ (st : LedgerState) (m : ChatMessage),
      (recordMessage st m).1.messageHistory = st.messageHistory ++ [m] ∧
      (recordMessage st m).1.messageHistory.length = st.messageHistory.length + 1 ∧
      (recordMessage st m).1.messageHistory.take st.messageHistory.length =
        st.messageHistory ∧
      (recordMessage st m).1.agentAccounts = st.agentAccounts ∧
      ∀ accounts : List (String × ℕ),
        (recordMessage { st with agentAccounts := accounts } m).1.messageHistory =
          st.messageHistory ++ [m] := by
  intro st m
  refine ⟨rfl, by simp [recordMessage], ?_, rfl, fun accounts => rfl⟩
  simp [recordMessage, List.take_left]

/-- C2: after `TrustLedger.applyOutcome` every agent's trust lies in [0,100];
an adjustment that would carry it above 100 lands exactly on 100 and one that
would carry it below 0 lands exactly on 0 (clamped to the boundary, never
wrapped), whatever the magnitude of the adjustment. -/
theorem C2_trust_bounds :
    ∀ (cfg : EngineConfig) (trust : String → ℚ) (d : Outcome) (a : String),
      0 ≤ applyOutcome cfg trust d a ∧
      applyOutcome cfg trust d a ≤ 100 ∧
      (100 ≤ trust a + trustDelta cfg d a → applyOutcome cfg trust d a = 100) ∧
      (trust a + trustDelta cfg d a ≤ 0 → applyOutcome cfg trust d a = 0) := by
  intro cfg trust d a
  unfold applyOutcome clamp100
  refine ⟨le_max_left 0 _, max_le (by norm_num) (min_le_left _ _), ?_, ?_⟩
  · intro h
    rw [min_eq_left h]
    norm_num
  · intro h
    rw [min_eq_right (h.trans (by norm_num)), max_eq_left h]

/-- C2 witness: with the default configuration, a no-action outcome and an
agent at trust 200, the sum exceeds 100 and `applyOutcome` clamps to exactly
100. -/
theorem C2_trust_bounds_witness :
    (100 ≤ (fun _ : String => (200 : ℚ)) "alice" +
      trustDelta {} ⟨none, none, 0, []⟩ "alice") ∧
    applyOutcome {} (fun _ : String => (200 : ℚ)) ⟨none, none, 0, []⟩ "alice" = 100 :=
  ⟨by norm_num [trustDelta],
   (C2_trust_bounds {} (fun _ => 200) ⟨none, none, 0, []⟩ "alice").2.2.1
     (by norm_num [trustDelta])⟩

/-- A sample personality used by concrete-input witnesses. -/
def mayorSample : AgentPersonality where
  id := "mayor"
  department := none
  decisionStyle := .collaborative
  priorities := [(.sustainability, 3/5), (.economic, 2/5)]
  riskTolerance := 50
  corruptionResistance := 70
  budgetSensitivity := 50

/-- A sample bad-actor personality used by concrete-input witnesses. -/
def badActorSample : AgentPersonality where
  id := "dev_corp"
  department := none
  decisionStyle := .aggressive
  priorities := [(.economic, 1)]
  riskTolerance := 80
  corruptionResistance := 0
  budgetSensitivity := 10

/-- A sample proposal used by concrete-input witnesses. -/
def proposalSample : Proposal where
  id := 1
  proposerId := "dev_corp"
  targetDepartment := "ENERGY"
  sustainabilityImpact := -20
  economicImpact := 30
  politicalImpact := 5
  bribeAmount := 0
  createdAtTurn := 1

/-- C4: for a fixed proposal, fixed target personality (hence fixed
`corruptionResistance` ≤ 100) and positive bribe-scale constant, the
lobbying bid's `effectiveScore` is monotonically non-decreasing in the bribe
amount: the evaluator score ignores `bribeAmount`, and
`min(bribe/scale, maxInfluence) × (1 − resistance/100)` is non-decreasing. -/
theorem C4_bribe_monotone :
    ∀ (cfg : EngineConfig) (ba : AgentPersonality) (pr : Proposal)
      (target : AgentPersonality) (ctx : Context) (seed : ℕ) (b₁ b₂ : ℚ),
      0 < cfg.bribeScaleConstant →
      target.corruptionResistance ≤ 100 →
      b₁ ≤ b₂ →
      (bid cfg ba { pr with bribeAmount := b₁ } target ctx seed).effectiveScore ≤
        (bid cfg ba { pr with bribeAmount := b₂ } target ctx seed).effectiveScore := by
  intro cfg ba pr target ctx seed b₁ b₂ hscale hcr hb
  have hev : evaluate cfg target { pr with bribeAmount := b₁ } ctx seed =
      evaluate cfg target { pr with bribeAmount := b₂ } ctx seed := rfl
  simp only [bid, hev]
  apply add_le_add_left
  apply mul_le_mul_of_nonneg_right
  · exact min_le_min ((div_le_div_iff_of_pos_right hscale).mpr hb) le_rfl
  · have : target.corruptionResistance / 100 ≤ 1 := by linarith
    linarith

/-- C4 witness: with the default constants (scale 50000 > 0), the Mayor sample
(resistance 70 ≤ 100) and bribes 0 ≤ 100000, the effective score at bribe 0
is at most the effective score at bribe 100000. -/
theorem C4_bribe_monotone_witness :
    0 < ({} : EngineConfig).bribeScaleConstant ∧
    mayorSample.corruptionResistance ≤ 100 ∧
    (0 : ℚ) ≤ 100000 ∧
    (bid {} badActorSample { proposalSample with bribeAmount := 0 }
        mayorSample ⟨50, 10⟩ 0).effectiveScore ≤
      (bid {} badActorSample { proposalSample with bribeAmount := 100000 }
        mayorSample ⟨50, 10⟩ 0).effectiveScore :=
  ⟨by norm_num, by norm_num [mayorSample], by norm_num,
   C4_bribe_monotone {} badActorSample proposalSample mayorSample ⟨50, 10⟩ 0 0 100000
     (by norm_num) (by norm_num [mayorSample]) (by norm_num)⟩

/-- A sample session configuration used by the determinism witness. -/
def sessionSample : SessionConfig where
  engine := {}
  mayor := mayorSample
  deptHeads := []
  initialDepartments := [("ENERGY", 50)]

/-- C5: the arbitration engine is deterministic — two runs on equal
`(config, seed, proposal sequence)` inputs produce equal `Decision`
sequences, and `ProposalEvaluator.evaluate` is a pure function of
`(personality, proposal, context, seed)`: equal inputs give equal opinions.
In the purely functional model of the engine this holds by construction. -/
theorem C5_determinism :
    ∀ (sc₁ sc₂ : SessionConfig) (s₁ s₂ : ℕ) (r₁ r₂ : List (List Proposal)),
      sc₁ = sc₂ → s₁ = s₂ → r₁ = r₂ →
      runEngine sc₁ s₁ r₁ = runEngine sc₂ s₂ r₂ ∧
      ∀ (p₁ p₂ : AgentPersonality) (pr₁ pr₂ : Proposal) (c₁ c₂ : Context)
        (sd₁ sd₂ : ℕ),
        p₁ = p₂ → pr₁ = pr₂ → c₁ = c₂ → sd₁ = sd₂ →
        evaluate sc₁.engine p₁ pr₁ c₁ sd₁ = evaluate sc₂.engine p₂ pr₂ c₂ sd₂ := by
  intro sc₁ sc₂ s₁ s₂ r₁ r₂ hsc hs hr
  subst hsc; subst hs; subst hr
  refine ⟨rfl, ?_⟩
  intro p₁ p₂ pr₁ pr₂ c₁ c₂ sd₁ sd₂ hp hpr hc hsd
  subst hp; subst hpr; subst hc; subst hsd
  rfl

/-- C5 witness: two runs of the sample session on the same seed and the same
one-round proposal sequence yield the same decision sequence. -/
theorem C5_determinism_witness :
    runEngine sessionSample 7 [[proposalSample]] =
      runEngine sessionSample 7 [[proposalSample]] :=
  (C5_determinism sessionSample sessionSample 7 7 [[proposalSample]]
    [[proposalSample]] rfl rfl rfl).1

/-- `pushLog` written with the appended length in the drop index. -/
lemma pushLog_eq (logs : List LogEntry) (e : LogEntry) :
    pushLog logs e = (logs ++ [e]).drop (logs.length + 1 - 100) := by
  simp [pushLog, List.length_append]

/-- One `pushLog` step on a buffer that is the 100-suffix of the messages so
far yields the 100-suffix of the extended message sequence. -/
lemma pushLog_drop (pre : List LogEntry) (e : LogEntry) :
    pushLog (pre.drop (pre.length - 100)) e = (pre ++ [e]).drop (pre.length + 1 - 100) := by
  rw [pushLog_eq]
  by_cases h : pre.length ≤ 100
  · have h0 : pre.length - 100 = 0 := Nat.sub_eq_zero_of_le h
    rw [h0, List.drop_zero]
  · push_neg at h
    have hlen : (pre.drop (pre.length - 100)).length = 100 := by
      rw [List.length_drop]; omega
    rw [hlen, show (100 : ℕ) + 1 - 100 = 1 from by norm_num]
    calc ((pre.drop (pre.length - 100)) ++ [e]).drop 1
        = (pre.drop (pre.length - 100)).drop 1 ++ [e] :=
          List.drop_append_of_le_length (by omega)
      _ = pre.drop (pre.length - 100 + 1) ++ [e] := by rw [List.drop_drop]
      _ = pre.drop (pre.length + 1 - 100) ++ [e] := by
          rw [show pre.length - 100 + 1 = pre.length + 1 - 100 from by omega]
      _ = (pre ++ [e]).drop (pre.length + 1 - 100) :=
          (List.drop_append_of_le_length (by omega)).symm

/-- Folding `pushLog` over the remaining messages, starting from the
100-suffix of the messages already received, yields the 100-suffix of the
whole sequence. -/
lemma foldl_pushLog_drop (l : List LogEntry) :
    ∀ pre : List LogEntry,
      l.foldl pushLog (pre.drop (pre.length - 100)) =
        (pre ++ l).drop ((pre ++ l).length - 100) := by
  induction l with
  | nil => intro pre; simp
  | cons e tl ih =>
      intro pre
      rw [List.foldl_cons, pushLog_drop pre e]
      have h := ih (pre ++ [e])
      rw [List.length_append] at h
      simpa [List.append_assoc, List.length_append] using h

/-- C10: after any sequence of websocket messages the LogsPanel buffer is
exactly the 100-suffix of the arrival sequence — at most 100 entries, the
most recently received ones, oldest dropped first, in arrival order. -/
theorem C10_logs_retention :
    ∀ entries : List LogEntry,
      logsAfter entries = entries.drop (entries.length - 100) ∧
      (logsAfter entries).length ≤ 100 := by
  intro entries
  have h := foldl_pushLog_drop entries []
  simp only [List.nil_append, List.length_nil, Nat.zero_sub, List.drop_zero,
    List.drop_nil] at h
  have heq : logsAfter entries = entries.drop (entries.length - 100) := h
  refine ⟨heq, ?_⟩
  rw [heq, List.length_drop]
  omega

/-- If every candidate's final score is nonpositive, the Arbiter's scan keeps
its accumulator: no candidate is ever selected. -/
lemma foldl_pickBetter_of_nonpos (l : List Scored) (acc : Option Scored)
    (h : ∀ c ∈ l, c.finalScore ≤ 0) : l.foldl pickBetter acc = acc := by
  induction l generalizing acc with
  | nil => rfl
  | cons x xs ih =>
      rw [List.foldl_cons]
      rw [show pickBetter acc x = acc from by
        simp [pickBetter, h x (List.mem_cons_self x xs)]]
      exact ih acc fun c hc => h c (List.mem_cons_of_mem _ hc)

/-- Invariant of the Arbiter's scan from a positive accumulator: the result is
positive, at least as good as the accumulator and as every scanned candidate,
and is either the accumulator itself or the earliest strictly-better
candidate. -/
lemma foldl_pickBetter_some_spec (l : List Scored) :
    ∀ b : Scored, 0 < b.finalScore →
      ∀ w, l.foldl pickBetter (some b) = some w →
        0 < w.finalScore ∧ b.finalScore ≤ w.finalScore ∧
        (∀ c ∈ l, c.finalScore ≤ w.finalScore) ∧
        (w = b ∨ ∃ pre post, l = pre ++ w :: post ∧
          b.finalScore < w.finalScore ∧ ∀ c ∈ pre, c.finalScore < w.finalScore) := by
  induction l with
  | nil =>
      intro b hb w hw
      simp only [List.foldl_nil, Option.some.injEq] at hw
      subst hw
      exact ⟨hb, le_rfl, by simp, Or.inl rfl⟩
  | cons x xs ih =>
      intro b hb w hw
      rw [List.foldl_cons] at hw
      by_cases hx0 : x.finalScore ≤ 0
      · rw [show pickBetter (some b) x = some b from by simp [pickBetter, hx0]] at hw
        obtain ⟨hw0, hbw, hall, hstruct⟩ := ih b hb w hw
        refine ⟨hw0, hbw, ?_, ?_⟩
        · intro c hc
          rcases List.mem_cons.mp hc with rfl | hc
          · exact le_of_lt (lt_of_le_of_lt hx0 hw0)
          · exact hall c hc
        · rcases hstruct with rfl | ⟨pre, post, heq, hbw2, hpre⟩
          · exact Or.inl rfl
          · refine Or.inr ⟨x :: pre, post, by rw [heq, List.cons_append], hbw2, ?_⟩
            intro c hc
            rcases List.mem_cons.mp hc with rfl | hc
            · exact lt_of_le_of_lt hx0 hw0
            · exact hpre c hc
      · push_neg at hx0
        by_cases hbx : b.finalScore < x.finalScore
        · rw [show pickBetter (some b) x = some x from by
            simp [pickBetter, not_le.mpr hx0, hbx]] at hw
          obtain ⟨hw0, hxw, hall, hstruct⟩ := ih x hx0 w hw
          refine ⟨hw0, le_of_lt (lt_of_lt_of_le hbx hxw), ?_, ?_⟩
          · intro c hc
            rcases List.mem_cons.mp hc with rfl | hc
            · exact hxw
            · exact hall c hc
          · rcases hstruct with rfl | ⟨pre, post, heq, hxw2, hpre⟩
            · exact Or.inr ⟨[], xs, rfl, hbx, by simp⟩
            · refine Or.inr ⟨x :: pre, post, by rw [heq, List.cons_append],
                lt_trans hbx hxw2, ?_⟩
              intro c hc
              rcases List.mem_cons.mp hc with rfl | hc
              · exact hxw2
              · exact hpre c hc
        · push_neg at hbx
          rw [show pickBetter (some b) x = some b from by
            simp [pickBetter, not_le.mpr hx0, not_lt.mpr hbx]] at hw
          obtain ⟨hw0, hbw, hall, hstruct⟩ := ih b hb w hw
          refine ⟨hw0, hbw, ?_, ?_⟩
          · intro c hc
            rcases List.mem_cons.mp hc with rfl | hc
            · exact le_trans hbx hbw
            · exact hall c hc
          · rcases hstruct with rfl | ⟨pre, post, heq, hbw2, hpre⟩
            · exact Or.inl rfl
            · refine Or.inr ⟨x :: pre, post, by rw [heq, List.cons_append], hbw2, ?_⟩
              intro c hc
              rcases List.mem_cons.mp hc with rfl | hc
              · exact lt_of_le_of_lt hbx hbw2
              · exact hpre c hc

/-- A selected winner is positive, dominates every candidate, and every
candidate submitted before it scores strictly less (so ties go to the
earliest submission). -/
lemma selectWinner_some_spec (l : List Scored) :
    ∀ w, selectWinner l = some w →
      0 < w.finalScore ∧ (∀ c ∈ l, c.finalScore ≤ w.finalScore) ∧
      ∃ pre post, l = pre ++ w :: post ∧ ∀ c ∈ pre, c.finalScore < w.finalScore := by
  induction l with
  | nil => intro w hw; simp [selectWinner] at hw
  | cons x xs ih =>
      intro w hw
      rw [selectWinner, List.foldl_cons] at hw
      by_cases hx0 : x.finalScore ≤ 0
      · rw [show pickBetter none x = none from by simp [pickBetter, hx0]] at hw
        obtain ⟨hw0, hall, pre, post, heq, hpre⟩ := ih w hw
        refine ⟨hw0, ?_, x :: pre, post, by rw [heq, List.cons_append], ?_⟩
        · intro c hc
          rcases List.mem_cons.mp hc with rfl | hc
          · exact le_of_lt (lt_of_le_of_lt hx0 hw0)
          · exact hall c hc
        · intro c hc
          rcases List.mem_cons.mp hc with rfl | hc
          · exact lt_of_le_of_lt hx0 hw0
          · exact hpre c hc
      · push_neg at hx0
        rw [show pickBetter none x = some x from by
          simp [pickBetter, not_le.mpr hx0]] at hw
        obtain ⟨hw0, hxw, hall, hstruct⟩ := foldl_pickBetter_some_spec xs x hx0 w hw
        refine ⟨hw0, ?_, ?_⟩
        · intro c hc
          rcases List.mem_cons.mp hc with rfl | hc
          · exact hxw
          · exact hall c hc
        · rcases hstruct with rfl | ⟨pre, post, heq, hxw2, hpre⟩
          · exact ⟨[], xs, rfl, by simp⟩
          · refine ⟨x :: pre, post, by rw [heq, List.cons_append], ?_⟩
            intro c hc
            rcases List.mem_cons.mp hc with rfl | hc
            · exact hxw2
            · exact hpre c hc

/-- C3: the Arbiter selects the candidate with the highest positive
`finalScore`; any candidate submitted earlier than the winner scores strictly
less, so equal-score ties are won by the earliest submission; when no
candidate has a positive score — in particular when `pendingProposals` is
empty — the round resolves to the "no action" outcome with a null winning
proposal id and the department scores unchanged, without any failure. -/
theorem C3_arbiter_resolution :
    ∀ (cands : List Scored) (deps : List (String × ℚ)),
      (∀ w, selectWinner cands = some w →
        w ∈ cands ∧ 0 < w.finalScore ∧
        (∀ c ∈ cands, c.finalScore ≤ w.finalScore) ∧
        ∃ pre post, cands = pre ++ w :: post ∧
          ∀ c ∈ pre, c.finalScore < w.finalScore) ∧
      ((∀ c ∈ cands, c.finalScore ≤ 0) → selectWinner cands = none) ∧
      selectWinner [] = none ∧
      resolveCandidates deps [] = (none, deps) ∧
      ((∀ c ∈ cands, c.finalScore ≤ 0) →
        resolveCandidates deps cands = (none, deps)) := by
  intro cands deps
  refine ⟨?_, ?_, rfl, rfl, ?_⟩
  · intro w hw
    obtain ⟨hw0, hall, pre, post, heq, hpre⟩ := selectWinner_some_spec cands w hw
    refine ⟨?_, hw0, hall, pre, post, heq, hpre⟩
    rw [heq]
    exact List.mem_append_right _ (List.mem_cons_self _ _)
  · intro h
    exact foldl_pickBetter_of_nonpos cands none h
  · intro h
    have hn : selectWinner cands = none := foldl_pickBetter_of_nonpos cands none h
    simp [resolveCandidates, hn]

/-- A one-candidate round whose final score is negative, for the no-action
witness. -/
def loseCandsSample : List Scored := [⟨proposalSample, -3⟩]

/-- C3 witness: a round whose only candidate has a negative final score
resolves to no action — null winner, department scores unchanged. -/
theorem C3_arbiter_resolution_witness :
    (∀ c ∈ loseCandsSample, c.finalScore ≤ 0) ∧
    resolveCandidates [("ENERGY", (50 : ℚ))] loseCandsSample =
      (none, [("ENERGY", (50 : ℚ))]) :=
  ⟨by decide,
   (C3_arbiter_resolution loseCandsSample [("ENERGY", 50)]).2.2.2.2 (by decide)⟩

end Mailopolis
